import Mathlib

/-
Verification of the regression analysis engine of the CAPM and Multi-Factor
Analyzer backend (src/backend/main.py).

Modelling conventions of the shallow embedding:
- A date-indexed return series (pandas Series) is a list of (date, value)
  pairs, dates as natural numbers, values as exact rationals.  Values
  representable here are finite, so a dropna step on already-built series
  is the identity and is noted where the code performs it.
- Rationals stand for the floating point numbers of the code; the two
  places where the code computes a transcendental function of its floats
  (np.power with a real exponent, the standard error square root) are
  embedded into the reals.
- np.power(b, e) is NaN for b < 0 with non-integer e; a NaN result is
  modelled as Option.none.
- sm.OLS with the two-column design [const, market] is embedded by the
  closed-form normal-equation solution (slope Sxy/Sxx, intercept
  ybar - slope * xbar), which is what the library computes for a
  full-rank design.  sm.add_constant (has_constant defaults to skip)
  detects an existing constant column as np.ptp(col) == 0 together with
  np.any(col != 0), so only a NONZERO constant market column suppresses
  the intercept; there the later lookup model.params[const] fails with
  KeyError and the blanket except block turns that into an HTTP 500
  error (the nonzeroConstantRegressor branch below).  An ALL-ZERO
  constant market column keeps the intercept, the default pinv fit
  succeeds on the rank-deficient design, and the minimum-norm solution
  has slope 0 and intercept ybar, with ssr = 0, bse = 0 and a NaN
  rsquared from the 0/0 division; the rational conventions Sxy/Sxx =
  0/0 = 0 and 0/0 = 0 inside the standard error reproduce those pinv
  values, and the NaN rsquared is modelled as none.
- The three-factor sm.OLS fit of calculate_factor_exposure is an external
  library call whose numeric output no claim depends on; it is passed in
  as an oracle argument, and the np.random draws of the demo branches are
  passed in as the stream of realized values.
-/

abbrev Series := List (ℕ × ℚ)

/-- Lookup of the value stored at date d, first match wins; pandas indices
here are assumed unique and ascending as the data model requires. -/
def lookupDate {α : Type} (d : ℕ) : List (ℕ × α) → Option α
  | [] => none
  | p :: rest => if d = p.1 then some p.2 else lookupDate d rest

/-- Inner-join alignment of an asset and a market series on shared dates
(pd.concat axis=1 join=inner at main.py line 67), returning the rows as
(asset value, market value) pairs.  The subsequent dropna (line 74) is the
identity on representable values. -/
def alignInner (a m : Series) : List (ℚ × ℚ) :=
  a.filterMap fun p => (lookupDate p.1 m).map fun y => (p.2, y)

def seriesMean (l : List ℚ) : ℚ := l.sum / (l.length : ℚ)

/-- Excess asset returns, aligned asset column minus rf/252 (line 80). -/
def excessAsset (xs : List (ℚ × ℚ)) (rf : ℚ) : List ℚ :=
  xs.map fun p => p.1 - rf / 252

/-- Excess market returns, aligned market column minus rf/252 (line 81). -/
def excessMarket (xs : List (ℚ × ℚ)) (rf : ℚ) : List ℚ :=
  xs.map fun p => p.2 - rf / 252

/-- Centered cross moment Sxy of two equal-length vectors. -/
def covS (u v : List ℚ) : ℚ :=
  ((u.zip v).map fun p => (p.1 - seriesMean u) * (p.2 - seriesMean v)).sum

/-- Centered second moment Sxx of a vector. -/
def varS (u : List ℚ) : ℚ :=
  (u.map fun x => (x - seriesMean u) ^ 2).sum

/-- OLS slope of excess asset on excess market with intercept:

model.params[market] = Sxy / Sxx (line 94).  In the degenerate all-zero
market-column case the pinv minimum-norm fit returns slope 0, which the
rational convention Sxy / Sxx = 0 / 0 = 0 reproduces. -/
def betaOf (xs : List (ℚ × ℚ)) (rf : ℚ) : ℚ :=
  covS (excessMarket xs rf) (excessAsset xs rf) / varS (excessMarket xs rf)

/-- OLS intercept (daily alpha), model.params[const]. -/
def alphaDailyOf (xs : List (ℚ × ℚ)) (rf : ℚ) : ℚ :=
  seriesMean (excessAsset xs rf) - betaOf xs rf * seriesMean (excessMarket xs rf)

/-- Residual sum of squares of the fitted line. -/
def ssrOf (xs : List (ℚ × ℚ)) (rf : ℚ) : ℚ :=
  (((excessMarket xs rf).zip (excessAsset xs rf)).map
    fun p => (p.2 - (alphaDailyOf xs rf + betaOf xs rf * p.1)) ^ 2).sum

/-- model.rsquared = 1 - ssr / centered total sum of squares (line 96).
When the centered total sum of squares vanishes (constant asset column,
which also forces ssr = 0 on every reachable path) the float division is
0/0 and rsquared is NaN, modelled as none. -/
def rSquaredOf (xs : List (ℚ × ℚ)) (rf : ℚ) : Option ℚ :=
  if varS (excessAsset xs rf) = 0 then none
  else some (1 - ssrOf xs rf / varS (excessAsset xs rf))

/-- Compounded total return of the aligned asset column,
(1 + aligned_data[asset]).prod() - 1 (line 89). -/
def totalReturnOf (xs : List (ℚ × ℚ)) : ℚ :=
  (xs.map fun p => 1 + p.1).prod - 1

/-- Annualized market premium, excess_market.mean() * 252 (line 91). -/
def marketPremiumOf (xs : List (ℚ × ℚ)) (rf : ℚ) : ℚ :=
  seriesMean (excessMarket xs rf) * 252

/-- Actual annualized return, np.power(1 + total_return, 252 / n_days) - 1
(line 90).  np.power of a nonnegative base is the real power; np.power of a
negative base is defined only for an integral exponent and is NaN (none)
otherwise. -/
noncomputable def actualReturnOf (xs : List (ℚ × ℚ)) : Option ℝ :=
  if (0 : ℝ) ≤ 1 + (totalReturnOf xs : ℝ) then
    some ((1 + (totalReturnOf xs : ℝ)) ^ ((252 : ℝ) / (xs.length : ℝ)) - 1)
  else if 252 % xs.length = 0 then
    some ((1 + (totalReturnOf xs : ℝ)) ^ (252 / xs.length) - 1)
  else none

/-- Standard error of the slope, model.bse[market] =
sqrt((ssr / (n - 2)) / Sxx) for the two-parameter full-rank design.  In
the degenerate all-zero market-column case statsmodels computes bse from
scale * pinv(X^T X) and gets 0; the rational convention 0 / 0 = 0 under
the square root reproduces that value. -/
noncomputable def stdErrOf (xs : List (ℚ × ℚ)) (rf : ℚ) : ℝ :=
  Real.sqrt (((ssrOf xs rf : ℝ) / ((xs.length : ℝ) - 2)) / (varS (excessMarket xs rf) : ℝ))

/-- The result record built at lines 93-108.  The p_value entry (a
t-distribution tail probability of an external statistics library) has no
closed form over this embedding and is carried by no claim, so it is
omitted from the record. -/
structure CAPMResult where
  beta : ℚ
  alpha : ℚ
  r_squared : Option ℚ
  expected_return : ℚ
  actual_return : Option ℝ
  treasury_yield : ℚ
  market_premium : ℚ
  std_error : ℝ
  confidence_interval : ℝ × ℝ
  n_observations : ℕ

/-- The successful branch of CAPMAnalyzer.calculate_capm. -/
noncomputable def capmResult (xs : List (ℚ × ℚ)) (rf : ℚ) : CAPMResult where
  beta := betaOf xs rf
  alpha := alphaDailyOf xs rf * 252
  r_squared := rSquaredOf xs rf
  expected_return := rf + betaOf xs rf * marketPremiumOf xs rf
  actual_return := actualReturnOf xs
  treasury_yield := rf
  market_premium := marketPremiumOf xs rf
  std_error := stdErrOf xs rf
  confidence_interval :=
    ((betaOf xs rf : ℝ) - 1.96 * stdErrOf xs rf, (betaOf xs rf : ℝ) + 1.96 * stdErrOf xs rf)
  n_observations := xs.length

/-- Detection of an existing constant column by sm.add_constant:
np.ptp(column) == 0 together with np.any(column != 0), i.e. constant AND
not all zero.  Only such a column suppresses the intercept; an all-zero
column is not treated as a constant and the intercept is still added. -/
def isNonzeroConstant : List ℚ → Bool
  | [] => false
  | x :: rest => decide (x ≠ 0) && rest.all fun y => decide (y = x)

inductive CapmError where
  | noOverlap
  | insufficientData
  | nonzeroConstantRegressor
deriving DecidableEq

/-- CAPMAnalyzer.calculate_capm (lines 63-111).  The raised ValueError or
KeyError is caught by the except block and re-raised as HTTPException with
status 500, modelled as the error payload (500, reason):
- empty inner join (line 68);
- fewer than 10 aligned rows (line 76);
- constant NONZERO market column: sm.add_constant detects it as an
  existing constant and skips the intercept, so the lookup
  model.params[const] at line 95 raises KeyError.
An all-zero market column keeps the intercept and the pinv fit succeeds
on the rank-deficient design, so the function returns a degenerate
result (slope 0, intercept ybar, bse 0, NaN rsquared). -/
noncomputable def calculate_capm (a m : Series) (rf : ℚ) :
    Except (ℕ × CapmError) CAPMResult :=
  if (alignInner a m).length = 0 then .error (500, .noOverlap)
  else if (alignInner a m).length < 10 then .error (500, .insufficientData)
  else if isNonzeroConstant (excessMarket (alignInner a m) rf) then
    .error (500, .nonzeroConstantRegressor)
  else .ok (capmResult (alignInner a m) rf)

/-- The /api/capm route (lines 452-482): its blanket except block catches
the HTTPException raised inside calculate_capm and re-raises it with
status 400, so every estimator failure surfaces as a client-fault
response. -/
noncomputable def capmEndpoint (a m : Series) (rf : ℚ) :
    Except (ℕ × CapmError) CAPMResult :=
  match calculate_capm a m rf with
  | .ok r => .ok r
  | .error e => .error (400, e.2)

/-
Multi-factor part: FactorAnalyzer.calculate_factor_exposure (lines 183-275).
Dates are mapped to day ordinals with day 0 a Monday, so a business day is
a residue below 5 modulo 7; asfreq(B, method=pad) reindexes a series to
the business days between its first and last date, forward-filling values.
-/

def isBday (d : ℕ) : Bool := d % 7 < 5

def bdayRange (lo hi : ℕ) : List ℕ :=
  ((List.range (hi + 1 - lo)).map fun k => lo + k).filter fun d => isBday d

/-- Index produced by asfreq(B): business days from the first to the last
date of the input index. -/
def asfreqBIndex : List ℕ → List ℕ
  | [] => []
  | d :: rest => bdayRange d ((d :: rest).getLastD d)

/-- common_dates (line 191): intersection of the two business-day
indices, in index order. -/
def commonBDates (aDates fDates : List ℕ) : List ℕ :=
  (asfreqBIndex aDates).filter fun d => (asfreqBIndex fDates).contains d

/-- Forward-fill (method=pad) value of a series at date d: the value of
the last entry dated at most d, none (NaN) when every entry is later. -/
def padAt {α : Type} (s : List (ℕ × α)) (d : ℕ) : Option α :=
  ((s.filter fun p => decide (p.1 ≤ d)).getLast?).map Prod.snd

structure FactorRow where
  mkt_rf : ℚ
  smb : ℚ
  hml : ℚ
  rf : ℚ
deriving DecidableEq

abbrev FactorSeries := List (ℕ × FactorRow)

/-- Rows surviving valid_mask (line 225): common dates where both padded
series carry a value (a missing pad value is the NaN the mask drops). -/
def cleanRows (asset : Series) (factors : FactorSeries) : List (ℕ × ℚ × FactorRow) :=
  (commonBDates (asset.map Prod.fst) (factors.map Prod.fst)).filterMap fun d =>
    match padAt asset d, padAt factors d with
    | some x, some f => some (d, x, f)
    | _, _ => none

/-- Output of the external three-factor sm.OLS fit (line 233), passed to
the estimator as an oracle. -/
structure OLSFit where
  mkt_rf : ℚ
  smb : ℚ
  hml : ℚ
  const : ℚ
  r_squared : ℚ
  p_mkt : ℚ
  p_smb : ℚ
  p_hml : ℚ
  f_statistic : ℚ
  f_pvalue : ℚ
  aic : ℚ
  bic : ℚ
deriving DecidableEq

structure FactorResult where
  market_beta : ℚ
  smb_beta : ℚ
  hml_beta : ℚ
  alpha : ℚ
  r_squared : ℚ
  p_mkt : ℚ
  p_smb : ℚ
  p_hml : ℚ
  n_observations : ℕ
  f_statistic : ℚ
  f_pvalue : ℚ
  aic : ℚ
  bic : ℚ
deriving DecidableEq

/-- The demo-data record of the two fallback branches (lines 194-212 and
257-275).  rand k is the realized value of the k-th np.random draw of the
branch; the two branches differ only in n_observations and in the
f_statistic entry, which the under-30 branch randomizes (25 + 10 * draw)
and the except branch fixes at 25. -/
def placeholderResult (rand : ℕ → ℚ) (nObs : ℕ) (fstatRandom : Bool) : FactorResult where
  market_beta := 1 + rand 0
  smb_beta := rand 1
  hml_beta := rand 2
  alpha := rand 3
  r_squared := 2/5 + rand 4 * (2/5)
  p_mkt := 1/1000 + rand 5 * (1/100)
  p_smb := 1/20 + rand 6 * (3/10)
  p_hml := 1/20 + rand 7 * (3/10)
  n_observations := nObs
  f_statistic := if fstatRandom then 25 + rand 8 * 10 else 25
  f_pvalue := 1/10000
  aic := -800
  bic := -780

/-- The genuine regression record (lines 235-253) built from the fit. -/
def genuineResult (m : OLSFit) (nObs : ℕ) : FactorResult where
  market_beta := m.mkt_rf
  smb_beta := m.smb
  hml_beta := m.hml
  alpha := m.const * 252
  r_squared := m.r_squared
  p_mkt := m.p_mkt
  p_smb := m.p_smb
  p_hml := m.p_hml
  n_observations := nObs
  f_statistic := m.f_statistic
  f_pvalue := m.f_pvalue
  aic := m.aic
  bic := m.bic

/-- Outcome of calculate_factor_exposure; the constructor records which
return site of the function produced the record: the regression result of
line 235, or one of the two demo-data literals (lines 194 and 257). -/
inductive FactorOutcome where
  | genuine (r : FactorResult)
  | placeholder (r : FactorResult)
deriving DecidableEq

def isPlaceholder : FactorOutcome → Bool
  | .placeholder _ => true
  | .genuine _ => false

/-- FactorAnalyzer.calculate_factor_exposure (lines 183-275):
- overlap below 30 business days: demo data with n_observations the
  overlap count, or 100 when the overlap is empty (line 205);
- fewer than 30 clean rows: the raise at line 230 lands in the except
  block, demo data with n_observations 100;
- regression failure: the except block, demo data with n_observations 100;
- otherwise the genuine regression record. -/
def calculate_factor_exposure (asset : Series) (factors : FactorSeries)
    (rand : ℕ → ℚ) (fit : List (ℕ × ℚ × FactorRow) → Except Unit OLSFit) : FactorOutcome :=
  if (commonBDates (asset.map Prod.fst) (factors.map Prod.fst)).length < 30 then
    .placeholder (placeholderResult rand
      (if (commonBDates (asset.map Prod.fst) (factors.map Prod.fst)).length = 0 then 100
       else (commonBDates (asset.map Prod.fst) (factors.map Prod.fst)).length) true)
  else if (cleanRows asset factors).length < 30 then
    .placeholder (placeholderResult rand 100 false)
  else
    match fit (cleanRows asset factors) with
    | .ok m => .genuine (genuineResult m (cleanRows asset factors).length)
    | .error _ => .placeholder (placeholderResult rand 100 false)

/-
Portfolio part: the portfolio_capm route (lines 540-629).
-/

inductive PortfolioError where
  | countMismatch
  | emptyList
  | sumOutOfTolerance
deriving DecidableEq

/-- The three weight validations of portfolio_capm (lines 553-567), in
source order; each failure raises HTTPException with status 400. -/
def portfolio_capm_validate (tickers : List String) (weights : List ℚ) :
    Except PortfolioError Unit :=
  if tickers.length ≠ weights.length then .error .countMismatch
  else if tickers.length = 0 then .error .emptyList
  else if |weights.sum - 100| > 1/100 then .error .sumOutOfTolerance
  else .ok ()

/-- returns * (weight / 100.0) (line 583). -/
def weighted_series (s : Series) (w : ℚ) : Series :=
  s.map fun p => (p.1, p.2 * (w / 100))

/-- align(join=inner) followed by pointwise addition (lines 589-590). -/
def align_add (a b : Series) : Series :=
  a.filterMap fun p => (lookupDate p.1 b).map fun y => (p.1, p.2 + y)

/-- The composite portfolio series built by the loop at lines 580-590:
fold the weighted series, aligning and adding; none when no ticker. -/
def portfolio_returns (ss : List Series) (ws : List ℚ) : Option Series :=
  (ss.zip ws).foldl
    (fun acc sw =>
      match acc with
      | none => some (weighted_series sw.1 sw.2)
      | some p => some (align_add p (weighted_series sw.1 sw.2)))
    none

/-
ReturnSeries builder: DataFetcher.get_returns (lines 36-47); the fetched
close prices are the input here.
-/

inductive FetchError where
  | noData
deriving DecidableEq

/-- pct_change of a price list: entry i is (p_i - p_(i-1)) / p_(i-1); the
leading entry is NaN (none), as is a 0/0 entry for two consecutive zero
prices.  IEEE infinities (nonzero / 0) are outside the claims and keep the
rational convention x / 0 = 0. -/
def pct_change (prices : List ℚ) : List (Option ℚ) :=
  none :: (prices.zip prices.tail).map fun q =>
    if q.1 = 0 ∧ q.2 = 0 then none else some ((q.2 - q.1) / q.1)

def dropna (l : List (Option ℚ)) : List ℚ := l.filterMap id

/-- DataFetcher.get_returns on the fetched price history: only an empty
history raises (line 41, surfaced as HTTPException 400); otherwise the
result is pct_change().dropna(). -/
def get_returns (prices : List ℚ) : Except FetchError (List ℚ) :=
  if prices.length = 0 then .error .noData
  else .ok (dropna (pct_change prices))

/-
Helper lemmas.
-/

theorem filterMap_eq_map_of_forall {α β : Type} (l : List α) (g : α → Option β) (f : α → β)
    (h : ∀ a ∈ l, g a = some (f a)) : l.filterMap g = l.map f := by
  induction l with
  | nil => rfl
  | cons x xs ih =>
    rw [List.filterMap_cons, h x (by simp), List.map_cons,
      ih fun a ha => h a (List.mem_cons_of_mem x ha)]

theorem lookupDate_isSome_iff {α : Type} (d : ℕ) (s : List (ℕ × α)) :
    (lookupDate d s).isSome ↔ d ∈ s.map Prod.fst := by
  induction s with
  | nil => simp [lookupDate]
  | cons p rest ih => by_cases h : d = p.1 <;> simp [lookupDate, h, ih]

theorem lookupDate_self_isSome {α : Type} (s : List (ℕ × α)) :
    ∀ p ∈ s, (lookupDate p.1 s).isSome := by
  intro p hp
  exact (lookupDate_isSome_iff p.1 s).mpr (List.mem_map_of_mem Prod.fst hp)

theorem lookupDate_self_of_nodup {α : Type} :
    ∀ {s : List (ℕ × α)}, (s.map Prod.fst).Nodup →
      ∀ p ∈ s, lookupDate p.1 s = some p.2 := by
  intro s
  induction s with
  | nil => intro _ p hp; cases hp
  | cons q rest ih =>
    intro hnd p hp
    rw [List.map_cons, List.nodup_cons] at hnd
    rcases List.mem_cons.mp hp with rfl | hp2
    · simp [lookupDate]
    · have hne : p.1 ≠ q.1 := by
        intro h
        exact hnd.1 (h ▸ List.mem_map_of_mem Prod.fst hp2)
      simpa [lookupDate, hne] using ih hnd.2 p hp2

theorem alignInner_map_fst {a m : Series} (h : ∀ p ∈ a, (lookupDate p.1 m).isSome) :
    (alignInner a m).map Prod.fst = a.map Prod.snd := by
  induction a with
  | nil => rfl
  | cons p rest ih =>
    obtain ⟨y, hy⟩ := Option.isSome_iff_exists.mp (h p (by simp))
    have hrest := ih fun q hq => h q (List.mem_cons_of_mem p hq)
    simp only [alignInner, List.filterMap_cons, hy, Option.map_some] at *
    simpa using hrest

theorem align_self_length {s : Series} : (alignInner s s).length = s.length := by
  have h := alignInner_map_fst (a := s) (m := s) (lookupDate_self_isSome s)
  have := congrArg List.length h
  simpa using this

theorem align_self_diag {s : Series} (hnd : (s.map Prod.fst).Nodup) :
    alignInner s s = s.map fun p => (p.2, p.2) := by
  apply filterMap_eq_map_of_forall
  intro p hp
  rw [lookupDate_self_of_nodup hnd p hp]
  rfl

theorem zip_self_eq_map {α : Type} (l : List α) : l.zip l = l.map fun a => (a, a) := by
  induction l with
  | nil => rfl
  | cons x xs ih => simpa [List.zip_cons_cons] using ih

theorem varS_ne_zero_of_ne {l : List ℚ} {a b : ℚ} (ha : a ∈ l) (hb : b ∈ l)
    (hab : a ≠ b) : varS l ≠ 0 := by
  intro h0
  have hnn : ∀ x ∈ l.map fun x => (x - seriesMean l) ^ 2, 0 ≤ x := by
    intro x hx
    obtain ⟨y, _, rfl⟩ := List.mem_map.mp hx
    positivity
  have key : ∀ y ∈ l, y = seriesMean l := by
    intro y hy
    have hle : (y - seriesMean l) ^ 2 ≤ varS l :=
      List.single_le_sum hnn _ (List.mem_map_of_mem _ hy)
    have hz : (y - seriesMean l) ^ 2 = 0 :=
      le_antisymm (h0 ▸ hle) (by positivity)
    have hy0 := pow_eq_zero_iff (by norm_num : (2 : ℕ) ≠ 0) |>.mp hz
    linarith [sub_eq_zero.mp hy0]
  exact hab ((key a ha).trans (key b hb).symm)

/-
Claim theorems.
-/

/-- C1: whenever the business-day overlap of the asset and factor series
has fewer than 30 dates, calculate_factor_exposure returns the demo-data
placeholder with n_observations equal to the overlap count (100 when the
overlap is empty); and whenever the regression fit reports failure, the
outcome is likewise a placeholder, never a propagated error. -/
theorem factor_exposure_placeholder_on_failure (asset : Series) (factors : FactorSeries)
    (rand : ℕ → ℚ) (fit : List (ℕ × ℚ × FactorRow) → Except Unit OLSFit) :
    ((commonBDates (asset.map Prod.fst) (factors.map Prod.fst)).length < 30 →
      calculate_factor_exposure asset factors rand fit =
        .placeholder (placeholderResult rand
          (if (commonBDates (asset.map Prod.fst) (factors.map Prod.fst)).length = 0 then 100
           else (commonBDates (asset.map Prod.fst) (factors.map Prod.fst)).length) true)) ∧
    (∀ e : Unit, fit (cleanRows asset factors) = .error e →
      isPlaceholder (calculate_factor_exposure asset factors rand fit) = true) := by
  constructor
  · intro h
    unfold calculate_factor_exposure
    rw [if_pos h]
  · intro e he
    unfold calculate_factor_exposure
    by_cases h1 : (commonBDates (asset.map Prod.fst) (factors.map Prod.fst)).length < 30
    · rw [if_pos h1]; rfl
    · rw [if_neg h1]
      by_cases h2 : (cleanRows asset factors).length < 30
      · rw [if_pos h2]; rfl
      · rw [if_neg h2, he]; rfl

def tinyAsset : Series := [(0, 0)]

def tinyFactors : FactorSeries := [(0, ⟨0, 0, 0, 0⟩)]

theorem factor_exposure_placeholder_on_failure_witness :
    calculate_factor_exposure tinyAsset tinyFactors (fun _ => 0) (fun _ => .error ()) =
      .placeholder (placeholderResult (fun _ => 0)
        (if (commonBDates (tinyAsset.map Prod.fst) (tinyFactors.map Prod.fst)).length = 0
         then 100
         else (commonBDates (tinyAsset.map Prod.fst) (tinyFactors.map Prod.fst)).length)
        true) ∧
    isPlaceholder
      (calculate_factor_exposure tinyAsset tinyFactors (fun _ => 0) (fun _ => .error ())) =
      true :=
  ⟨(factor_exposure_placeholder_on_failure tinyAsset tinyFactors (fun _ => 0)
      (fun _ => .error ())).1 (by decide),
   (factor_exposure_placeholder_on_failure tinyAsset tinyFactors (fun _ => 0)
      (fun _ => .error ())).2 () rfl⟩

/-- C9: when the overlap and the clean row count both reach 30 but the
regression itself fails, the placeholder reports n_observations = 100
unconditionally, whatever the actual overlap. -/
theorem factor_exposure_error_nobs_100 (asset : Series) (factors : FactorSeries)
    (rand : ℕ → ℚ) (fit : List (ℕ × ℚ × FactorRow) → Except Unit OLSFit) (e : Unit)
    (h30 : 30 ≤ (commonBDates (asset.map Prod.fst) (factors.map Prod.fst)).length)
    (hclean : 30 ≤ (cleanRows asset factors).length)
    (he : fit (cleanRows asset factors) = .error e) :
    calculate_factor_exposure asset factors rand fit =
      .placeholder (placeholderResult rand 100 false) := by
  unfold calculate_factor_exposure
  rw [if_neg (by omega), if_neg (by omega), he]

def longAsset : Series := (List.range 42).map fun d => (d, 0)

def longFactors : FactorSeries := (List.range 42).map fun d => (d, ⟨0, 0, 0, 0⟩)

theorem factor_exposure_error_nobs_100_witness :
    calculate_factor_exposure longAsset longFactors (fun _ => 0) (fun _ => .error ()) =
      .placeholder (placeholderResult (fun _ => 0) 100 false) :=
  factor_exposure_error_nobs_100 longAsset longFactors (fun _ => 0) (fun _ => .error ()) ()
    (by decide) (by decide) rfl

/-- C2: with fewer than 10 aligned rows the CAPM estimator raises, and the
/api/capm route surfaces the failure as a client-fault (status 400)
response, never a fabricated result. -/
theorem capm_under10_client_fault (a m : Series) (rf : ℚ)
    (h : (alignInner a m).length < 10) :
    capmEndpoint a m rf = .error (400,
      if (alignInner a m).length = 0 then CapmError.noOverlap
      else CapmError.insufficientData) := by
  unfold capmEndpoint calculate_capm
  by_cases h0 : (alignInner a m).length = 0
  · rw [if_pos h0, if_pos h0]
  · rw [if_neg h0, if_neg h0, if_pos h]

theorem capm_under10_client_fault_witness :
    capmEndpoint [((0 : ℕ), (0 : ℚ))] [((0 : ℕ), (0 : ℚ))] 5 = .error (400,
      if (alignInner [((0 : ℕ), (0 : ℚ))] [((0 : ℕ), (0 : ℚ))]).length = 0
      then CapmError.noOverlap
      else CapmError.insufficientData) :=
  capm_under10_client_fault [((0 : ℕ), (0 : ℚ))] [((0 : ℕ), (0 : ℚ))] 5 (by decide)

/-- C5: the portfolio weight validation accepts exactly when the counts
match, the ticker list is nonempty and the weight sum is within 0.01 of
100; a sum of 100.005 is accepted and a sum of 99.0 is rejected. -/
theorem portfolio_weight_tolerance :
    (∀ (tickers : List String) (weights : List ℚ),
      portfolio_capm_validate tickers weights = .ok () ↔
        (tickers.length = weights.length ∧ tickers ≠ [] ∧
          |weights.sum - 100| ≤ 1/100)) ∧
    portfolio_capm_validate ["A"] [100.005] = .ok () ∧
    portfolio_capm_validate ["A"] [99] = .error .sumOutOfTolerance := by
  refine ⟨fun tickers weights => ?_, ?_, ?_⟩
  · constructor
    · intro hok
      unfold portfolio_capm_validate at hok
      split_ifs at hok with h1 h2 h3
      exact ⟨not_not.mp h1, by simpa [List.length_eq_zero] using h2, not_lt.mp h3⟩
    · rintro ⟨h1, h2, h3⟩
      unfold portfolio_capm_validate
      rw [if_neg (not_not.mpr h1), if_neg (by simpa [List.length_eq_zero] using h2),
        if_neg (not_lt.mpr h3)]
  · norm_num [portfolio_capm_validate, lt_abs]
  · norm_num [portfolio_capm_validate, lt_abs]

theorem portfolio_weight_tolerance_witness :
    portfolio_capm_validate ["X", "Y"] [50, 50.003] = .ok () :=
  (portfolio_weight_tolerance.1 ["X", "Y"] [50, 50.003]).mpr
    ⟨rfl, by simp, by rw [abs_le]; norm_num⟩

def demoSeriesA : Series := [(0, 2), (1, 4)]

def demoSeriesB : Series := [(0, 1), (1, 3)]

/-- C10: weight validation checks only count, nonemptiness and the sum
tolerance, so negative or above-100 weights such as [150, -50] pass; the
weights then scale each series by weight/100 in the composite. -/
theorem portfolio_weights_only_sum_checked :
    (∀ (tickers : List String) (weights : List ℚ),
        tickers.length = weights.length → tickers ≠ [] →
        |weights.sum - 100| ≤ 1/100 →
        portfolio_capm_validate tickers weights = .ok ()) ∧
    portfolio_capm_validate ["AAPL", "XOM"] [150, -50] = .ok () ∧
    portfolio_returns [demoSeriesA, demoSeriesB] [150, -50] =
      some [(0, 5/2), (1, 9/2)] := by
  refine ⟨fun tickers weights h1 h2 h3 => ?_, ?_, ?_⟩
  · unfold portfolio_capm_validate
    rw [if_neg (not_not.mpr h1), if_neg (by simpa [List.length_eq_zero] using h2),
      if_neg (not_lt.mpr h3)]
  · norm_num [portfolio_capm_validate, lt_abs]
  · norm_num [portfolio_returns, demoSeriesA, demoSeriesB, weighted_series,
      align_add, lookupDate, List.filterMap_cons]

theorem portfolio_weights_only_sum_checked_witness :
    portfolio_capm_validate ["MSFT", "TSLA"] [150, -50] = .ok () :=
  portfolio_weights_only_sum_checked.1 ["MSFT", "TSLA"] [150, -50] rfl (by simp)
    (by rw [abs_le]; norm_num)

/-- C8 (amended): an empty price history fails with the no-data error and
a history of at least two nonzero prices yields the percentage-change
series with the undefined leading entry removed, but a single-point
history returns an empty series instead of failing, because the code only
checks hist.empty. -/
theorem get_returns_contract :
    get_returns ([] : List ℚ) = .error .noData ∧
    (∀ prices : List ℚ, 2 ≤ prices.length → (∀ p ∈ prices, p ≠ 0) →
      get_returns prices =
        .ok ((prices.zip prices.tail).map fun q => (q.2 - q.1) / q.1)) ∧
    (∀ p : ℚ, get_returns [p] = .ok []) := by
  refine ⟨rfl, fun prices h2 hnz => ?_, fun p => rfl⟩
  unfold get_returns
  rw [if_neg (by omega)]
  congr 1
  unfold dropna pct_change
  rw [List.filterMap_cons]
  show List.filterMap id (List.map _ _) = _
  rw [List.filterMap_map]
  apply filterMap_eq_map_of_forall
  intro q hq
  have hq1 : q.1 ∈ prices := (List.of_mem_zip hq).1
  simp [hnz q.1 hq1]

theorem get_returns_contract_witness :
    get_returns [100, 110] =
      .ok ((([100, 110] : List ℚ).zip ([100, 110] : List ℚ).tail).map
        fun q => (q.2 - q.1) / q.1) :=
  get_returns_contract.2.1 [100, 110] (by decide) (by decide)

/-- C8 counterexample: a single-point price history returns the empty
return series, not the insufficient-data failure the claim requires. -/
theorem get_returns_singleton_returns_empty :
    get_returns [(5 : ℚ)] = .ok [] ∧ get_returns [(5 : ℚ)] ≠ .error .noData := by
  refine ⟨rfl, fun h => ?_⟩
  rw [show get_returns [(5 : ℚ)] = .ok [] from rfl] at h
  exact Except.noConfusion h

theorem isNonzeroConstant_eq_false_of_ne {l : List ℚ} {a b : ℚ} (ha : a ∈ l)
    (hb : b ∈ l) (hab : a ≠ b) : isNonzeroConstant l = false := by
  cases l with
  | nil => rfl
  | cons x rest =>
    apply Bool.eq_false_iff.mpr
    intro htrue
    rw [isNonzeroConstant, Bool.and_eq_true, List.all_eq_true] at htrue
    have hx : ∀ c ∈ x :: rest, c = x := by
      intro c hc
      rcases List.mem_cons.mp hc with rfl | hc2
      · rfl
      · simpa using htrue.2 c hc2
    exact hab ((hx a ha).trans (hx b hb).symm)

def zeroSeries : Series :=
  [(0, 0), (1, 0), (2, 0), (3, 0), (4, 0), (5, 0), (6, 0), (7, 0), (8, 0), (9, 0)]

/-- C3 counterexample: feeding the constant all-zero ten-point series as
both asset and market makes the excess market column all zero, so the
intercept is still added and the rank-deficient pinv fit succeeds; the
estimator returns a degenerate result whose beta is 0.0, not 1.0 within
1e-9 as the claim requires. -/
theorem capm_identical_constant_series_beta_zero :
    calculate_capm zeroSeries zeroSeries 0 =
      .ok (capmResult (alignInner zeroSeries zeroSeries) 0) ∧
    (capmResult (alignInner zeroSeries zeroSeries) 0).beta = 0 ∧
    ¬ |(capmResult (alignInner zeroSeries zeroSeries) 0).beta - 1| ≤ 1 / 1000000000 := by
  have hd : alignInner zeroSeries zeroSeries = zeroSeries.map fun p => (p.2, p.2) :=
    align_self_diag (by decide)
  have h1 : (alignInner zeroSeries zeroSeries).length = 10 := by decide
  have hEM : excessMarket (alignInner zeroSeries zeroSeries) 0 =
      [0, 0, 0, 0, 0, 0, 0, 0, 0, 0] := by
    rw [hd]
    norm_num [excessMarket, zeroSeries]
  have hEA : excessAsset (alignInner zeroSeries zeroSeries) 0 =
      [0, 0, 0, 0, 0, 0, 0, 0, 0, 0] := by
    rw [hd]
    norm_num [excessAsset, zeroSeries]
  have hc : isNonzeroConstant (excessMarket (alignInner zeroSeries zeroSeries) 0) =
      false := by
    rw [hEM]; rfl
  have hbeta : (capmResult (alignInner zeroSeries zeroSeries) 0).beta = 0 := by
    show betaOf _ _ = 0
    unfold betaOf
    rw [hEM, hEA]
    norm_num [covS, varS, seriesMean]
  refine ⟨?_, hbeta, ?_⟩
  · unfold calculate_capm
    rw [if_neg (by rw [h1]; norm_num), if_neg (by rw [h1]; norm_num), if_neg (by simp [hc])]
  · rw [hbeta]
    rw [show |(0 : ℚ) - 1| = 1 by rw [abs_of_nonpos (by norm_num)]; norm_num]
    norm_num

/-- C3 (amended): with distinct dates, at least 10 points and at least two
distinct values, an identical asset and market series yields beta = 1,
annualized alpha = 0 and R squared = 1 exactly (hence within 1e-9). -/
theorem capm_identical_nondegenerate_perfect_fit (s : Series) (rf : ℚ)
    (hnd : (s.map Prod.fst).Nodup) (hlen : 10 ≤ s.length)
    (hne : ∃ p ∈ s, ∃ q ∈ s, p.2 ≠ q.2) :
    calculate_capm s s rf = .ok (capmResult (alignInner s s) rf) ∧
    (capmResult (alignInner s s) rf).beta = 1 ∧
    (capmResult (alignInner s s) rf).alpha = 0 ∧
    (capmResult (alignInner s s) rf).r_squared = some 1 := by
  have hd := align_self_diag hnd
  have hL : (alignInner s s).length = s.length := align_self_length
  have hdiag : ∀ p ∈ alignInner s s, p.1 = p.2 := by
    rw [hd]
    intro p hp
    obtain ⟨q, hq, rfl⟩ := List.mem_map.mp hp
    rfl
  have hAM : excessAsset (alignInner s s) rf = excessMarket (alignInner s s) rf := by
    unfold excessAsset excessMarket
    exact List.map_congr_left fun p hp => by rw [hdiag p hp]
  obtain ⟨p, hp, q, hq, hpq⟩ := hne
  have hmemp : p.2 - rf / 252 ∈ excessMarket (alignInner s s) rf := by
    unfold excessMarket
    rw [hd, List.map_map]
    exact List.mem_map.mpr ⟨p, hp, rfl⟩
  have hmemq : q.2 - rf / 252 ∈ excessMarket (alignInner s s) rf := by
    unfold excessMarket
    rw [hd, List.map_map]
    exact List.mem_map.mpr ⟨q, hq, rfl⟩
  have hvar : varS (excessMarket (alignInner s s) rf) ≠ 0 :=
    varS_ne_zero_of_ne hmemp hmemq (fun h => hpq (by linarith))
  have hconstF : isNonzeroConstant (excessMarket (alignInner s s) rf) = false :=
    isNonzeroConstant_eq_false_of_ne hmemp hmemq (fun h => hpq (by linarith))
  have hcov : covS (excessMarket (alignInner s s) rf) (excessMarket (alignInner s s) rf) =
      varS (excessMarket (alignInner s s) rf) := by
    unfold covS varS
    rw [zip_self_eq_map, List.map_map]
    apply congrArg List.sum
    apply List.map_congr_left
    intro x hx
    show (x - seriesMean _) * (x - seriesMean _) = (x - seriesMean _) ^ 2
    ring
  have hbeta : betaOf (alignInner s s) rf = 1 := by
    unfold betaOf
    rw [hAM, hcov, div_self hvar]
  have halpha : alphaDailyOf (alignInner s s) rf = 0 := by
    unfold alphaDailyOf
    rw [hAM, hbeta]
    ring
  have hssr : ssrOf (alignInner s s) rf = 0 := by
    unfold ssrOf
    simp only [hbeta, halpha, hAM]
    rw [zip_self_eq_map, List.map_map]
    apply List.sum_eq_zero
    intro x hx
    obtain ⟨y, hy, rfl⟩ := List.mem_map.mp hx
    show (y - (0 + 1 * y)) ^ 2 = 0
    ring
  have hsst : varS (excessAsset (alignInner s s) rf) ≠ 0 := by
    rw [hAM]; exact hvar
  have hr2 : rSquaredOf (alignInner s s) rf = some 1 := by
    unfold rSquaredOf
    rw [if_neg hsst, hssr, zero_div, sub_zero]
  refine ⟨?_, hbeta, ?_, hr2⟩
  · unfold calculate_capm
    rw [if_neg (by rw [hL]; omega), if_neg (by rw [hL]; omega), if_neg (by simp [hconstF])]
  · show alphaDailyOf _ _ * 252 = 0
    rw [halpha]
    ring

def variedSeries : Series :=
  [(0, 0), (1, 1), (2, 0), (3, 0), (4, 0), (5, 0), (6, 0), (7, 0), (8, 0), (9, 0)]

theorem capm_identical_nondegenerate_perfect_fit_witness :
    calculate_capm variedSeries variedSeries 0 =
      .ok (capmResult (alignInner variedSeries variedSeries) 0) ∧
    (capmResult (alignInner variedSeries variedSeries) 0).beta = 1 ∧
    (capmResult (alignInner variedSeries variedSeries) 0).alpha = 0 ∧
    (capmResult (alignInner variedSeries variedSeries) 0).r_squared = some 1 :=
  capm_identical_nondegenerate_perfect_fit variedSeries 0 (by decide) (by decide) (by decide)

/-- C6 (amended): on an aligned window whose asset column is the constant
daily return r with r at least -1 and at least 10 rows, the actual
annualized return equals (1 + r) ^ 252 - 1; the exponent collapse uses
(1 + r) ^ (n * (252 / n)) over a nonnegative base. -/
theorem capm_annualization_constant_return (xs : List (ℚ × ℚ)) (rf r : ℚ)
    (hconst : ∀ p ∈ xs, p.1 = r) (hlen : 10 ≤ xs.length) (hr : -1 ≤ r) :
    (capmResult xs rf).actual_return = some ((1 + (r : ℝ)) ^ (252 : ℕ) - 1) := by
  have hcol : xs.map (fun p => 1 + p.1) = List.replicate xs.length (1 + r) := by
    have hall : ∀ b ∈ xs.map (fun p => 1 + p.1), b = 1 + r := by
      intro b hb
      obtain ⟨p, hp, rfl⟩ := List.mem_map.mp hb
      rw [hconst p hp]
    simpa using List.eq_replicate_of_mem hall
  have htot : totalReturnOf xs = (1 + r) ^ xs.length - 1 := by
    unfold totalReturnOf
    rw [hcol, List.prod_replicate]
  have hx : (0 : ℝ) ≤ 1 + (r : ℝ) := by
    have h0 : (0 : ℚ) ≤ 1 + r := by linarith
    exact_mod_cast h0
  have hbase : (0 : ℝ) ≤ 1 + (totalReturnOf xs : ℝ) := by
    rw [htot]
    push_cast
    have := pow_nonneg hx xs.length
    linarith
  have hn : ((xs.length : ℝ)) ≠ 0 := Nat.cast_ne_zero.mpr (by omega)
  have key : (1 + (totalReturnOf xs : ℝ)) ^ ((252 : ℝ) / (xs.length : ℝ)) =
      (1 + (r : ℝ)) ^ (252 : ℕ) := by
    rw [htot]
    push_cast
    rw [show ((1 : ℝ) + ((1 + (r : ℝ)) ^ xs.length - 1)) = (1 + (r : ℝ)) ^ xs.length by ring]
    rw [← Real.rpow_natCast (1 + (r : ℝ)) xs.length, ← Real.rpow_mul hx]
    rw [show ((xs.length : ℝ) * ((252 : ℝ) / (xs.length : ℝ))) = (252 : ℝ) by field_simp]
    rw [show ((252 : ℝ)) = ((252 : ℕ) : ℝ) by norm_num, Real.rpow_natCast]
  show actualReturnOf xs = _
  unfold actualReturnOf
  rw [if_pos hbase, key]

def constTenRows : List (ℚ × ℚ) :=
  [(1, 0), (1, 1), (1, 2), (1, 3), (1, 4), (1, 5), (1, 6), (1, 7), (1, 8), (1, 9)]

theorem capm_annualization_constant_return_witness :
    (capmResult constTenRows 0).actual_return =
      some ((1 + ((1 : ℚ) : ℝ)) ^ (252 : ℕ) - 1) :=
  capm_annualization_constant_return constTenRows 0 1 (by decide) (by decide) (by decide)

def cexAssetSeries : Series :=
  [(0, -2), (1, -2), (2, -2), (3, -2), (4, -2), (5, -2), (6, -2), (7, -2), (8, -2),
    (9, -2), (10, -2)]

def cexMarketSeries : Series :=
  [(0, 0), (1, 1), (2, 2), (3, 3), (4, 4), (5, 5), (6, 6), (7, 7), (8, 8), (9, 9), (10, 10)]

/-- C6 counterexample: a constant daily return of -2 over 11 aligned days
compounds to a negative base (1 + total = -1) with the non-integer
exponent 252/11, so np.power yields NaN and the actual annualized return
is not (1 + r) ^ 252 - 1 = 0. -/
theorem capm_annualization_below_neg_one_cex :
    calculate_capm cexAssetSeries cexMarketSeries 0 =
      .ok (capmResult (alignInner cexAssetSeries cexMarketSeries) 0) ∧
    (capmResult (alignInner cexAssetSeries cexMarketSeries) 0).actual_return ≠
      some ((1 + ((-2 : ℚ) : ℝ)) ^ (252 : ℕ) - 1) := by
  have h1 : (alignInner cexAssetSeries cexMarketSeries).length = 11 := by decide
  have hal : alignInner cexAssetSeries cexMarketSeries =
      [(-2, 0), (-2, 1), (-2, 2), (-2, 3), (-2, 4), (-2, 5), (-2, 6), (-2, 7), (-2, 8),
        (-2, 9), (-2, 10)] := by decide
  constructor
  · have hEM : excessMarket (alignInner cexAssetSeries cexMarketSeries) 0 =
        [0, 1, 2, 3, 4, 5, 6, 7, 8, 9, 10] := by
      rw [hal]
      norm_num [excessMarket]
    have hc : isNonzeroConstant (excessMarket (alignInner cexAssetSeries cexMarketSeries) 0) =
        false := by
      rw [hEM]; rfl
    unfold calculate_capm
    rw [if_neg (by rw [h1]; norm_num), if_neg (by rw [h1]; norm_num), if_neg (by simp [hc])]
  · have htot : totalReturnOf (alignInner cexAssetSeries cexMarketSeries) = -2 := by
      rw [hal]
      norm_num [totalReturnOf, List.prod_cons]
    have hnone : actualReturnOf (alignInner cexAssetSeries cexMarketSeries) = none := by
      unfold actualReturnOf
      rw [htot, h1]
      rw [if_neg (by push_cast; norm_num), if_neg (by norm_num)]
    show actualReturnOf _ ≠ _
    rw [hnone]
    simp

/-- C7: every successful CAPM estimation carries the 95 percent
confidence interval [beta - 1.96 se, beta + 1.96 se] with the fixed
normal-approximation multiplier 1.96. -/
theorem capm_confidence_interval_normal_approx (a m : Series) (rf : ℚ) (res : CAPMResult)
    (h : calculate_capm a m rf = .ok res) :
    res.confidence_interval =
      ((res.beta : ℝ) - 1.96 * res.std_error, (res.beta : ℝ) + 1.96 * res.std_error) := by
  unfold calculate_capm at h
  split_ifs at h
  rw [Except.ok.injEq] at h
  subst h
  rfl

theorem variedSeries_capm_ok :
    calculate_capm variedSeries variedSeries 0 =
      .ok (capmResult (alignInner variedSeries variedSeries) 0) := by
  have hd : alignInner variedSeries variedSeries = variedSeries.map fun p => (p.2, p.2) :=
    align_self_diag (by decide)
  have h1 : (alignInner variedSeries variedSeries).length = 10 := by decide
  have hEM : excessMarket (alignInner variedSeries variedSeries) 0 =
      [0, 1, 0, 0, 0, 0, 0, 0, 0, 0] := by
    rw [hd]
    norm_num [excessMarket, variedSeries]
  have hc : isNonzeroConstant (excessMarket (alignInner variedSeries variedSeries) 0) =
      false := by
    rw [hEM]; rfl
  unfold calculate_capm
  rw [if_neg (by rw [h1]; norm_num), if_neg (by rw [h1]; norm_num), if_neg (by simp [hc])]

theorem capm_confidence_interval_normal_approx_witness :
    (capmResult (alignInner variedSeries variedSeries) 0).confidence_interval =
      (((capmResult (alignInner variedSeries variedSeries) 0).beta : ℝ) -
        1.96 * (capmResult (alignInner variedSeries variedSeries) 0).std_error,
       ((capmResult (alignInner variedSeries variedSeries) 0).beta : ℝ) +
        1.96 * (capmResult (alignInner variedSeries variedSeries) 0).std_error) :=
  capm_confidence_interval_normal_approx variedSeries variedSeries 0
    (capmResult (alignInner variedSeries variedSeries) 0) variedSeries_capm_ok
